import Mathlib

/-!
Verification development for the `markowitz-reference` repository.

The repository contains two Python source files:
* `src/markowitz.py` — the paper's reference listing: dataclasses `Data` and
  `Parameters` and the function `markowitz` that builds a cvxpy problem
  (objective and constraints) and solves it.
* `src/experiments/markowitz.py` — a variant used by the experiments, with a
  halved turnover norm, hard turnover/risk constraints, a leverage penalty
  term, and a solver-status fallback.

This file shallowly embeds both: cvxpy expressions become real-valued
functions of the decision variables `(w, c)`, the constraint lists become
lists of tagged constraints with a semantic interpretation, and the
solve/return control flow becomes an explicit function of the external
solver's behavior (the solver itself is out of scope per the specification).
-/

noncomputable section

namespace MarkowitzRef

open Finset

/-- Dot product of two vectors, `a @ b` in numpy. -/
def dot {n : ℕ} (a b : Fin n → ℝ) : ℝ := ∑ i, a i * b i

/-- `cp.norm1`: the L1 norm of a vector. -/
def norm1 {n : ℕ} (v : Fin n → ℝ) : ℝ := ∑ i, |v i|

/-- `cp.norm2` of a vector: the Euclidean norm. -/
def norm2 {n : ℕ} (v : Fin n → ℝ) : ℝ := Real.sqrt (∑ i, (v i) ^ 2)

/-- `cp.norm2(cp.hstack([a, b]))`: the Euclidean norm of a 2-vector. -/
def norm2two (a b : ℝ) : ℝ := Real.sqrt (a ^ 2 + b ^ 2)

/-- `cp.pos(x) = max(x, 0)`, the positive part. -/
def pospart (x : ℝ) : ℝ := max x 0

end MarkowitzRef

namespace Markowitz

open MarkowitzRef

/-- `src/markowitz.py` lines 17-34: the `Data` dataclass.
Vectors of length `n` (assets); factor dimension `k`. -/
structure Data (n k : ℕ) where
  w_prev : Fin n → ℝ
  c_prev : ℝ
  idio_mean : Fin n → ℝ
  factor_mean : Fin k → ℝ
  risk_free : ℝ
  factor_covariance_chol : Fin k → Fin k → ℝ
  idio_volas : Fin n → ℝ
  F : Fin n → Fin k → ℝ
  kappa_short : Fin n → ℝ
  kappa_borrow : ℝ
  kappa_spread : Fin n → ℝ
  kappa_impact : Fin n → ℝ

/-- `src/markowitz.py` lines 37-53: the `Parameters` dataclass. -/
structure Parameters (n : ℕ) where
  w_lower : Fin n → ℝ
  w_upper : Fin n → ℝ
  c_lower : ℝ
  c_upper : ℝ
  z_lower : Fin n → ℝ
  z_upper : Fin n → ℝ
  T_max : ℝ
  L_max : ℝ
  rho_mean : Fin n → ℝ
  rho_covariance : ℝ
  gamma_hold : ℝ
  gamma_trade : ℝ
  gamma_turn : ℝ
  gamma_risk : ℝ
  risk_target : ℝ

variable {n k : ℕ}

/-- Line 66: `z = w - data.w_prev`. -/
def z (d : Data n k) (w : Fin n → ℝ) : Fin n → ℝ := fun i => w i - d.w_prev i

/-- Line 67: `T = cp.norm1(z)`. -/
def T (d : Data n k) (w : Fin n → ℝ) : ℝ := norm1 (z d w)

/-- Line 68: `L = cp.norm1(w)`. -/
def L (w : Fin n → ℝ) : ℝ := norm1 w

/-- The matrix product `data.F @ data.factor_covariance_chol`, an `(n, k)` matrix. -/
def FC (d : Data n k) : Fin n → Fin k → ℝ :=
  fun i j => ∑ l, d.F i l * d.factor_covariance_chol l j

/-- Line 71: `factor_return = (data.F @ data.factor_mean).T @ w`. -/
def factor_return (d : Data n k) (w : Fin n → ℝ) : ℝ :=
  dot (fun i => ∑ j, d.F i j * d.factor_mean j) w

/-- Line 72: `idio_return = data.idio_mean @ w`. -/
def idio_return (d : Data n k) (w : Fin n → ℝ) : ℝ := dot d.idio_mean w

/-- Line 73: `mean_return = factor_return + idio_return + data.risk_free * c`. -/
def mean_return (d : Data n k) (w : Fin n → ℝ) (c : ℝ) : ℝ :=
  factor_return d w + idio_return d w + d.risk_free * c

/-- Line 74: `return_uncertainty = param.rho_mean @ cp.abs(w)`. -/
def return_uncertainty (p : Parameters n) (w : Fin n → ℝ) : ℝ :=
  dot p.rho_mean (fun i => |w i|)

/-- Line 75: `return_wc = mean_return - return_uncertainty`. -/
def return_wc (d : Data n k) (p : Parameters n) (w : Fin n → ℝ) (c : ℝ) : ℝ :=
  mean_return d w c - return_uncertainty p w

/-- Line 78: `factor_volas = cp.norm2(data.F @ data.factor_covariance_chol, axis=1)`:
row-wise Euclidean norms of the `(n, k)` matrix. -/
def factor_volas (d : Data n k) : Fin n → ℝ :=
  fun i => norm2 (fun j => FC d i j)

/-- Line 79: `volas = factor_volas + data.idio_volas`. -/
def volas (d : Data n k) : Fin n → ℝ := fun i => factor_volas d i + d.idio_volas i

/-- Line 82: `factor_risk = cp.norm2((data.F @ data.factor_covariance_chol).T @ w)`. -/
def factor_risk (d : Data n k) (w : Fin n → ℝ) : ℝ :=
  norm2 (fun j => ∑ i, FC d i j * w i)

/-- Line 83: `idio_risk = cp.norm2(cp.multiply(data.idio_volas, w))`. -/
def idio_risk (d : Data n k) (w : Fin n → ℝ) : ℝ :=
  norm2 (fun i => d.idio_volas i * w i)

/-- Line 84: `risk = cp.norm2(cp.hstack([factor_risk, idio_risk]))`. -/
def risk (d : Data n k) (w : Fin n → ℝ) : ℝ :=
  norm2two (factor_risk d w) (idio_risk d w)

/-- Line 87: `risk_uncertainty = param.rho_covariance**0.5 * volas @ cp.abs(w)`.
Python's `** 0.5` is the real power with exponent `0.5`. -/
def risk_uncertainty (d : Data n k) (p : Parameters n) (w : Fin n → ℝ) : ℝ :=
  p.rho_covariance ^ (0.5 : ℝ) * dot (volas d) (fun i => |w i|)

/-- Line 88: `risk_wc = cp.norm2(cp.hstack([risk, risk_uncertainty]))`. -/
def risk_wc (d : Data n k) (p : Parameters n) (w : Fin n → ℝ) : ℝ :=
  norm2two (risk d w) (risk_uncertainty d p w)

/-- Line 90: `asset_holding_cost = data.kappa_short @ cp.pos(-w)`. -/
def asset_holding_cost (d : Data n k) (w : Fin n → ℝ) : ℝ :=
  dot d.kappa_short (fun i => pospart (-(w i)))

/-- Line 91: `cash_holding_cost = data.kappa_borrow * cp.pos(-c)`. -/
def cash_holding_cost (d : Data n k) (c : ℝ) : ℝ :=
  d.kappa_borrow * pospart (-c)

/-- Line 92: `holding_cost = asset_holding_cost + cash_holding_cost`. -/
def holding_cost (d : Data n k) (w : Fin n → ℝ) (c : ℝ) : ℝ :=
  asset_holding_cost d w + cash_holding_cost d c

/-- Line 94: `spread_cost = data.kappa_spread @ cp.abs(z)`. -/
def spread_cost (d : Data n k) (w : Fin n → ℝ) : ℝ :=
  dot d.kappa_spread (fun i => |z d w i|)

/-- Line 95: `impact_cost = data.kappa_impact @ cp.power(cp.abs(z), 3 / 2)`.
Python's `3 / 2` is the float `1.5`; `cp.power` is the elementwise real power. -/
def impact_cost (d : Data n k) (w : Fin n → ℝ) : ℝ :=
  dot d.kappa_impact (fun i => |z d w i| ^ ((3 : ℝ) / 2))

/-- Line 96: `trading_cost = spread_cost + impact_cost`. -/
def trading_cost (d : Data n k) (w : Fin n → ℝ) : ℝ :=
  spread_cost d w + impact_cost d w

/-- Lines 98-104: the maximized objective of `src/markowitz.py`. -/
def objective (d : Data n k) (p : Parameters n) (w : Fin n → ℝ) (c : ℝ) : ℝ :=
  return_wc d p w c
    - p.gamma_risk * pospart (risk_wc d p w - p.risk_target)
    - p.gamma_hold * holding_cost d w c
    - p.gamma_trade * trading_cost d w
    - p.gamma_turn * pospart (T d w - p.T_max)

end Markowitz

namespace MarkowitzRef

/-- Syntactic tags for the constraint forms occurring in either `markowitz`
function. Each tag is interpreted semantically by `Markowitz.constrSat` /
`MarkowitzExp.constrSat` below. -/
inductive Constr where
  | budgetEq      -- `cp.sum(w) + c == 1`
  | cashTradeEq   -- `c == data.c_prev - cp.sum(z)`
  | cashLower     -- `c_lower <= c` (`c_min <= c` in the experiments file)
  | cashUpper     -- `c <= c_upper`
  | wLower        -- `w_lower <= w`
  | wUpper        -- `w <= w_upper`
  | zLower        -- `z_lower <= z`
  | zUpper        -- `z <= z_upper`
  | leverageLe    -- `L <= L_max` (`L <= L_tar` in the experiments file)
  | turnoverLe    -- `T <= T_tar` (experiments file only)
  | riskLe        -- `risk_wc <= risk_target` (experiments file only)
deriving DecidableEq, Repr

/-- The cvxpy solver statuses distinguished by the code and the spec. -/
inductive Status where
  | optimal
  | optimal_inaccurate
  | infeasible
  | unbounded
  | solver_error
deriving DecidableEq, Repr

/-- `problem.status in {cp.OPTIMAL, cp.OPTIMAL_INACCURATE}`. -/
def Status.optimalClass : Status → Bool
  | .optimal => true
  | .optimal_inaccurate => true
  | _ => false

/-- Python exceptions that the solve / return code paths can raise. -/
inductive PyError where
  | solverError     -- `cp.SolverError` raised by `problem.solve`
  | attributeError  -- `AttributeError` raised by a missing dataclass field
deriving DecidableEq, Repr

/-- The observable behavior of one `problem.solve()` call of the external
solver (a black box per the spec, §6): whether it raises `cp.SolverError`,
the `problem.status` it leaves behind, and the values it writes into
`w.value` / `c.value` (cvxpy leaves these `None` when no optimal point was
found). -/
structure SolveBehavior (n : ℕ) where
  raises : Bool
  status : Status
  wVal : Option (Fin n → ℝ)
  cVal : Option ℝ

/-- Coarse statement kinds, used to record the statement sequence of each
`markowitz` function body in source order. -/
inductive Stmt where
  | importStmt          -- an `import` statement
  | assign              -- an assignment statement
  | solveCall           -- a bare `problem.solve()` call
  | solveTryExcept      -- `try: problem.solve(...) except cp.SolverError: print(...)`
  | statusCheckFallback -- `try: assert problem.status in {...} except AssertionError: ... return ...`
  | returnStmt          -- a `return` statement
  | validateDims        -- an up-front dimension validation check (no such statement occurs)
  | raiseError          -- an explicit `raise` statement (no such statement occurs)
deriving DecidableEq, Repr

/-- The statements of a function body that execute before the first solve
call. -/
def preSolve (body : List Stmt) : List Stmt :=
  body.takeWhile fun s => !(s == .solveCall || s == .solveTryExcept)

/-- A function body validates dimensions up front when a validation or
`raise` statement occurs before the first solve call. -/
def validatesUpFront (body : List Stmt) : Prop :=
  ∃ s ∈ preSolve body, s = Stmt.validateDims ∨ s = Stmt.raiseError

instance (body : List Stmt) : Decidable (validatesUpFront body) := by
  unfold validatesUpFront; infer_instance

/-- A 2-vector of reals as an element of the genuine Euclidean space, used
to state "Euclidean norm of the 2-vector" with Mathlib's norm. -/
def euclPair (a b : ℝ) : EuclideanSpace ℝ (Fin 2) :=
  (WithLp.equiv 2 (Fin 2 → ℝ)).symm ![a, b]

end MarkowitzRef

namespace Markowitz

open MarkowitzRef

variable {n k : ℕ}

/-- Semantic interpretation of each constraint tag with the data and
parameters of `src/markowitz.py` (vector inequalities are componentwise). -/
def constrSat (d : Data n k) (p : Parameters n) (w : Fin n → ℝ) (c : ℝ) : Constr → Prop
  | .budgetEq => (∑ i, w i) + c = 1
  | .cashTradeEq => c = d.c_prev - ∑ i, z d w i
  | .cashLower => p.c_lower ≤ c
  | .cashUpper => c ≤ p.c_upper
  | .wLower => ∀ i, p.w_lower i ≤ w i
  | .wUpper => ∀ i, w i ≤ p.w_upper i
  | .zLower => ∀ i, p.z_lower i ≤ z d w i
  | .zUpper => ∀ i, z d w i ≤ p.z_upper i
  | .leverageLe => L w ≤ p.L_max
  | .turnoverLe => T d w ≤ p.T_max
  | .riskLe => risk_wc d p w ≤ p.risk_target

/-- `src/markowitz.py` lines 106-116: the constraint list, in source order. -/
def constraintsList : List Constr :=
  [.budgetEq, .cashTradeEq, .cashLower, .cashUpper,
   .wLower, .wUpper, .zLower, .zUpper, .leverageLe]

/-- A point `(w, c)` is feasible iff it satisfies every constraint the
function hands to `cp.Problem`. -/
def feasible (d : Data n k) (p : Parameters n) (w : Fin n → ℝ) (c : ℝ) : Prop :=
  ∀ C ∈ constraintsList, constrSat d p w c C

/-- `src/markowitz.py` lines 118-121: `problem.solve()` followed by
`return w.value, c.value`. The solve call is not wrapped in any handler, so
a raised `cp.SolverError` propagates out of `markowitz` (modelled as
`Except.error`); otherwise the function returns `w.value, c.value` exactly
as the solver left them, with no status check. -/
def solveReturn (b : SolveBehavior n) :
    Except PyError (Option (Fin n → ℝ) × Option ℝ) :=
  if b.raises then .error .solverError
  else .ok (b.wVal, b.cVal)

/-- The statement sequence of the body of `markowitz`
(`src/markowitz.py` lines 62-121): the `import cvxpy` statement, the 25
assignment statements of lines 64-118 (variables, expression subterms,
`objective`, `constraints`, `problem`), the bare `problem.solve()` call,
and the `return`. The body contains no conditional, assertion, or `raise`
statement. -/
def body : List Stmt :=
  [.importStmt] ++ List.replicate 25 .assign ++ [.solveCall, .returnStmt]

end Markowitz

namespace MarkowitzExp

open MarkowitzRef

/-- `src/experiments/markowitz.py` lines 20-42: the experiments `Data`
dataclass. Note: unlike the `Data` of `src/markowitz.py`, it has NO
`c_prev` field. -/
structure Data (n k : ℕ) where
  w_prev : Fin n → ℝ
  idio_mean : Fin n → ℝ
  factor_mean : Fin k → ℝ
  risk_free : ℝ
  factor_covariance_chol : Fin k → Fin k → ℝ
  idio_volas : Fin n → ℝ
  F : Fin n → Fin k → ℝ
  kappa_short : Fin n → ℝ
  kappa_borrow : ℝ
  kappa_spread : Fin n → ℝ
  kappa_impact : Fin n → ℝ

/-- The field names declared by the experiments `Data` dataclass
(`src/experiments/markowitz.py` lines 22-32), in source order. Python
attribute access `data.<name>` succeeds exactly for these names (plus the
two `@property` methods `n_assets` and `volas`, lines 34-42). -/
def dataFieldNames : List String :=
  ["w_prev", "idio_mean", "factor_mean", "risk_free",
   "factor_covariance_chol", "idio_volas", "F", "kappa_short",
   "kappa_borrow", "kappa_spread", "kappa_impact"]

/-- The `@property` names of the experiments `Data` dataclass (lines 34-42). -/
def dataPropertyNames : List String := ["n_assets", "volas"]

/-- `src/experiments/markowitz.py` lines 45-62: the experiments
`Parameters` dataclass. -/
structure Parameters (n : ℕ) where
  w_min : Fin n → ℝ
  w_max : Fin n → ℝ
  c_min : ℝ
  c_max : ℝ
  z_min : Fin n → ℝ
  z_max : Fin n → ℝ
  T_tar : ℝ
  L_tar : ℝ
  risk_target : ℝ
  rho_mean : Fin n → ℝ
  rho_covariance : ℝ
  gamma_hold : ℝ
  gamma_trade : ℝ
  gamma_turn : ℝ
  gamma_risk : ℝ
  gamma_leverage : ℝ

/-- The field names declared by the experiments `Parameters` dataclass
(lines 47-62), in source order. Note: there is no `T_max` and no `L_max`
field, although lines 147-148 of the same file read `param.T_max` and
`param.L_max`. -/
def paramFieldNames : List String :=
  ["w_min", "w_max", "c_min", "c_max", "z_min", "z_max", "T_tar", "L_tar",
   "risk_target", "rho_mean", "rho_covariance", "gamma_hold", "gamma_trade",
   "gamma_turn", "gamma_risk", "gamma_leverage"]

variable {n k : ℕ}

/-- Line 99: `z = w - data.w_prev`. -/
def z (d : Data n k) (w : Fin n → ℝ) : Fin n → ℝ := fun i => w i - d.w_prev i

/-- Line 100: `T = cp.norm1(z) / 2` — NOTE the halving, absent from
`src/markowitz.py`. -/
def T (d : Data n k) (w : Fin n → ℝ) : ℝ := norm1 (z d w) / 2

/-- Line 101: `L = cp.norm1(w)`. -/
def L (w : Fin n → ℝ) : ℝ := norm1 w

/-- `data.F @ data.factor_covariance_chol`. -/
def FC (d : Data n k) : Fin n → Fin k → ℝ :=
  fun i j => ∑ l, d.F i l * d.factor_covariance_chol l j

/-- Lines 104-108: the worst-case return, identical in form to
`src/markowitz.py`. -/
def return_wc (d : Data n k) (p : Parameters n) (w : Fin n → ℝ) (c : ℝ) : ℝ :=
  (dot (fun i => ∑ j, d.F i j * d.factor_mean j) w + dot d.idio_mean w
      + d.risk_free * c)
    - dot p.rho_mean (fun i => |w i|)

/-- Lines 38-42: the `volas` property of the experiments `Data`:
`idio_volas + np.linalg.norm(F @ factor_covariance_chol, axis=1)`. -/
def volas (d : Data n k) : Fin n → ℝ :=
  fun i => d.idio_volas i + norm2 (fun j => FC d i j)

/-- Line 111: `factor_risk = cp.norm2((data.F @ data.factor_covariance_chol).T @ w)`. -/
def factor_risk (d : Data n k) (w : Fin n → ℝ) : ℝ :=
  norm2 (fun j => ∑ i, FC d i j * w i)

/-- Line 112: `idio_risk = cp.norm2(cp.multiply(data.idio_volas, w))`. -/
def idio_risk (d : Data n k) (w : Fin n → ℝ) : ℝ :=
  norm2 (fun i => d.idio_volas i * w i)

/-- Line 113: `risk = cp.norm2(cp.hstack([factor_risk, idio_risk]))`. -/
def risk (d : Data n k) (w : Fin n → ℝ) : ℝ :=
  norm2two (factor_risk d w) (idio_risk d w)

/-- Line 114: `risk_uncertainty = param.rho_covariance**0.5 * data.volas @ cp.abs(w)`. -/
def risk_uncertainty (d : Data n k) (p : Parameters n) (w : Fin n → ℝ) : ℝ :=
  p.rho_covariance ^ (0.5 : ℝ) * dot (volas d) (fun i => |w i|)

/-- Line 115: `risk_wc = cp.norm2(cp.hstack([risk, risk_uncertainty]))`. -/
def risk_wc (d : Data n k) (p : Parameters n) (w : Fin n → ℝ) : ℝ :=
  norm2two (risk d w) (risk_uncertainty d p w)

/-- Lines 117-119: the holding cost. -/
def holding_cost (d : Data n k) (w : Fin n → ℝ) (c : ℝ) : ℝ :=
  dot d.kappa_short (fun i => pospart (-(w i))) + d.kappa_borrow * pospart (-c)

/-- Lines 121-123: the trading cost. -/
def trading_cost (d : Data n k) (w : Fin n → ℝ) : ℝ :=
  dot d.kappa_spread (fun i => |z d w i|)
    + dot d.kappa_impact (fun i => |z d w i| ^ ((3 : ℝ) / 2))

/-- Lines 142-149: the objective actually handed to `cp.Maximize` (the
earlier binding of `objective` at lines 125-127 is overwritten).
The attribute reads `param.T_max` (line 147) and `param.L_max` (line 148)
name fields that the declared experiments `Parameters` dataclass does not
have (see `paramFieldNames`); their intended values are therefore taken
here as the explicit arguments `T_max` and `L_max`. -/
def objective (d : Data n k) (p : Parameters n) (T_max L_max : ℝ)
    (w : Fin n → ℝ) (c : ℝ) : ℝ :=
  return_wc d p w c
    - p.gamma_risk * pospart (risk_wc d p w - p.risk_target)
    - p.gamma_hold * holding_cost d w c
    - p.gamma_trade * trading_cost d w
    - p.gamma_turn * pospart (T d w - T_max)
    - p.gamma_leverage * pospart (L w - L_max)

/-- Semantic interpretation of each constraint tag with the data and
parameters of `src/experiments/markowitz.py`. The `cashTradeEq` tag does
not occur in this file's constraint list; it is interpreted by the same
formula with the (missing) previous cash supplied as `0`. -/
def constrSat (d : Data n k) (p : Parameters n) (w : Fin n → ℝ) (c : ℝ) : Constr → Prop
  | .budgetEq => (∑ i, w i) + c = 1
  | .cashTradeEq => c = 0 - ∑ i, z d w i
  | .cashLower => p.c_min ≤ c
  | .cashUpper => c ≤ p.c_max
  | .wLower => ∀ i, p.w_min i ≤ w i
  | .wUpper => ∀ i, w i ≤ p.w_max i
  | .zLower => ∀ i, p.z_min i ≤ z d w i
  | .zUpper => ∀ i, z d w i ≤ p.z_max i
  | .leverageLe => L w ≤ p.L_tar
  | .turnoverLe => T d w ≤ p.T_tar
  | .riskLe => risk_wc d p w ≤ p.risk_target

/-- `src/experiments/markowitz.py` lines 129-140: the constraint list, in
source order. -/
def constraintsList : List Constr :=
  [.budgetEq, .wLower, .wUpper, .leverageLe, .cashLower, .cashUpper,
   .zLower, .zUpper, .turnoverLe, .riskLe]

/-- `src/experiments/markowitz.py` lines 153-166: the solve and return
logic.
* Lines 153-157: `problem.solve(solver="MOSEK")` inside
  `try ... except cp.SolverError`, whose handler only prints — a raised
  `cp.SolverError` is swallowed and execution continues.
* Lines 159-166: if `problem.status` is `OPTIMAL` or `OPTIMAL_INACCURATE`,
  return `w.value, c.value, problem, True`; otherwise the fallback
  `return data.w_prev, data.c_prev, problem, False` evaluates the attribute
  `data.c_prev`. The experiments `Data` dataclass declares no such field or
  property (see `dataFieldNames`, `dataPropertyNames`), so in the fallback
  case the attribute lookup decides between returning the tuple and raising
  `AttributeError`. The `cp.Problem` component of the returned tuple is
  omitted from the model; the positive branch of the attribute test is
  decidably unreachable (no `c_prev` is declared), so no stored value
  exists for it to yield and it returns `none` in its place. -/
def solveReturn (b : SolveBehavior n) (d : Data n k) :
    Except PyError (Option (Fin n → ℝ) × Option ℝ × Bool) :=
  if b.status.optimalClass then .ok (b.wVal, b.cVal, true)
  else
    if ("c_prev" ∈ dataFieldNames ∨ "c_prev" ∈ dataPropertyNames) then
      .ok (some d.w_prev, none, false)
    else .error .attributeError

/-- The statement sequence of the body of the experiments `markowitz`
(`src/experiments/markowitz.py` lines 97-151 are the 24 assignment
statements building the variables, expressions, constraint list, both
`objective` bindings and `problem`; lines 153-157 are the guarded solve;
lines 159-166 the status check with fallback; line 166 the final return). -/
def body : List Stmt :=
  List.replicate 24 .assign ++ [.solveTryExcept, .statusCheckFallback, .returnStmt]

end MarkowitzExp

/-!
## Spec-side definitions

The following definitions are NOT translations of the source: they follow
the words of the specification (its RiskModel §4.1 and ObjectiveBuilder
§4.2), for comparison with the definitions translated from the source.
Euclidean norms are Mathlib's norms on `EuclideanSpace`.
-/

namespace SpecModel

open MarkowitzRef

variable {n k : ℕ}

/-- Spec §4.2: `return_wc` = (exposure·factor mean returns)·weights +
idiosyncratic mean·weights + risk-free·cash − return_uncertainty, where
`return_uncertainty` = return-uncertainty coefficients · |weights|. -/
def returnWC (F : Fin n → Fin k → ℝ) (factorMean : Fin k → ℝ)
    (idioMean : Fin n → ℝ) (riskFree : ℝ) (ruCoef : Fin n → ℝ)
    (w : Fin n → ℝ) (c : ℝ) : ℝ :=
  ((∑ i, (∑ j, F i j * factorMean j) * w i) + (∑ i, idioMean i * w i)
      + riskFree * c)
    - ∑ i, ruCoef i * |w i|

/-- Spec §4.2: `holding_cost` = Σ shorting_cost·max(0, −weight) +
borrowing_cost·max(0, −cash). -/
def holdingCost (short : Fin n → ℝ) (borrow : ℝ) (w : Fin n → ℝ) (c : ℝ) : ℝ :=
  (∑ i, short i * max 0 (-(w i))) + borrow * max 0 (-c)

/-- Spec §4.2: `trading_cost` = spread_cost · |trade vector| +
impact_cost · |trade vector|^1.5 (elementwise, exponent 3/2). -/
def tradingCost (spread impact prev : Fin n → ℝ) (w : Fin n → ℝ) : ℝ :=
  (∑ i, spread i * |w i - prev i|) + ∑ i, impact i * |w i - prev i| ^ (1.5 : ℝ)

/-- Spec §4.1: factor risk = Euclidean norm of
(exposure·covariance-factor)ᵗ applied to the weight vector. -/
def factorRisk (F : Fin n → Fin k → ℝ) (chol : Fin k → Fin k → ℝ)
    (w : Fin n → ℝ) : ℝ :=
  ‖(WithLp.equiv 2 (Fin k → ℝ)).symm fun j => ∑ i, (∑ l, F i l * chol l j) * w i‖

/-- Spec §4.1: idiosyncratic risk = Euclidean norm of
(idiosyncratic volatility ⊙ weights). -/
def idioRisk (idioVol w : Fin n → ℝ) : ℝ :=
  ‖(WithLp.equiv 2 (Fin n → ℝ)).symm fun i => idioVol i * w i‖

/-- Spec §4.1: combined risk = Euclidean norm of the 2-vector
(factor risk, idiosyncratic risk). -/
def combinedRisk (F : Fin n → Fin k → ℝ) (chol : Fin k → Fin k → ℝ)
    (idioVol w : Fin n → ℝ) : ℝ :=
  ‖euclPair (factorRisk F chol w) (idioRisk idioVol w)‖

/-- Spec §4.1: total per-asset volatility = idiosyncratic volatility +
row-wise Euclidean norm of (exposure · covariance-factor). -/
def totalVola (F : Fin n → Fin k → ℝ) (chol : Fin k → Fin k → ℝ)
    (idioVol : Fin n → ℝ) : Fin n → ℝ :=
  fun i => idioVol i + ‖(WithLp.equiv 2 (Fin k → ℝ)).symm fun j => ∑ l, F i l * chol l j‖

/-- Spec §4.2: `risk_uncertainty` = sqrt(covariance-uncertainty scale) ·
(total per-asset volatility · |weights|). -/
def riskUncertainty (F : Fin n → Fin k → ℝ) (chol : Fin k → Fin k → ℝ)
    (idioVol : Fin n → ℝ) (covUnc : ℝ) (w : Fin n → ℝ) : ℝ :=
  Real.sqrt covUnc * ∑ i, totalVola F chol idioVol i * |w i|

/-- Spec §4.2: `risk_wc` = Euclidean norm of (combined risk, risk_uncertainty). -/
def riskWC (F : Fin n → Fin k → ℝ) (chol : Fin k → Fin k → ℝ)
    (idioVol : Fin n → ℝ) (covUnc : ℝ) (w : Fin n → ℝ) : ℝ :=
  ‖euclPair (combinedRisk F chol idioVol w) (riskUncertainty F chol idioVol covUnc w)‖

/-- Spec §4.2, the objective formula without the optional leverage term:
`return_wc − γ_risk·max(0, risk_wc − risk_target) − γ_hold·holding_cost −
γ_trade·trading_cost − γ_turn·max(0, turnover − turnover_limit)`. -/
def formula (gRisk gHold gTrade gTurn riskTarget turnLimit
    returnWCv riskWCv holding trading turnover : ℝ) : ℝ :=
  returnWCv - gRisk * max 0 (riskWCv - riskTarget) - gHold * holding
    - gTrade * trading - gTurn * max 0 (turnover - turnLimit)

/-- Spec §4.2, the objective formula with the optional leverage term
`− γ_leverage·max(0, leverage − leverage_limit)`. -/
def formulaLev (gRisk gHold gTrade gTurn gLev riskTarget turnLimit levLimit
    returnWCv riskWCv holding trading turnover leverage : ℝ) : ℝ :=
  formula gRisk gHold gTrade gTurn riskTarget turnLimit
      returnWCv riskWCv holding trading turnover
    - gLev * max 0 (leverage - levLimit)

end SpecModel

/-!
## Concrete instances

Concrete data, parameters, and solver behaviors used by counterexamples and
witnesses.
-/

/-- A solve behavior in which the external solver raises `cp.SolverError`. -/
def behaviorFault : MarkowitzRef.SolveBehavior 1 :=
  ⟨true, .solver_error, none, none⟩

/-- A solve behavior in which the solver returns cleanly with status
`INFEASIBLE`; cvxpy then leaves `w.value` and `c.value` equal to `None`. -/
def behaviorInfeasible : MarkowitzRef.SolveBehavior 1 :=
  ⟨false, .infeasible, none, none⟩

/-- All-zero data for `src/markowitz.py` with one asset and one factor. -/
def srcDataZero : Markowitz.Data 1 1 where
  w_prev := fun _ => 0
  c_prev := 0
  idio_mean := fun _ => 0
  factor_mean := fun _ => 0
  risk_free := 0
  factor_covariance_chol := fun _ _ => 0
  idio_volas := fun _ => 0
  F := fun _ _ => 0
  kappa_short := fun _ => 0
  kappa_borrow := 0
  kappa_spread := fun _ => 0
  kappa_impact := fun _ => 0

/-- All-zero parameters for `src/markowitz.py` with one asset. -/
def srcParamZero : Markowitz.Parameters 1 where
  w_lower := fun _ => 0
  w_upper := fun _ => 0
  c_lower := 0
  c_upper := 0
  z_lower := fun _ => 0
  z_upper := fun _ => 0
  T_max := 0
  L_max := 0
  rho_mean := fun _ => 0
  rho_covariance := 0
  gamma_hold := 0
  gamma_trade := 0
  gamma_turn := 0
  gamma_risk := 0
  risk_target := 0

/-- Data whose previous weights and previous cash sum to `2`, not `1`. -/
def srcDataSumTwo : Markowitz.Data 1 1 :=
  { srcDataZero with c_prev := 2 }

/-- Data with unit exposure, unit covariance factor, and unit idiosyncratic
volatility: at `w = 1` both the factor risk and the idiosyncratic risk
equal `1`, so the combined risk is `√2` while their sum is `2`. -/
def srcDataUnit : Markowitz.Data 1 1 :=
  { srcDataZero with
    factor_covariance_chol := fun _ _ => 1
    idio_volas := fun _ => 1
    F := fun _ _ => 1 }

/-- All-zero data for `src/experiments/markowitz.py` with one asset and one
factor. -/
def expDataZero : MarkowitzExp.Data 1 1 where
  w_prev := fun _ => 0
  idio_mean := fun _ => 0
  factor_mean := fun _ => 0
  risk_free := 0
  factor_covariance_chol := fun _ _ => 0
  idio_volas := fun _ => 0
  F := fun _ _ => 0
  kappa_short := fun _ => 0
  kappa_borrow := 0
  kappa_spread := fun _ => 0
  kappa_impact := fun _ => 0

/-- C3's asserted property, as a predicate on a constraint list: exactly one
of the two cash-modeling conventions is present. -/
def exactlyOneCashConvention (cs : List MarkowitzRef.Constr) : Prop :=
  (MarkowitzRef.Constr.budgetEq ∈ cs ∧ MarkowitzRef.Constr.cashTradeEq ∉ cs) ∨
  (MarkowitzRef.Constr.cashTradeEq ∈ cs ∧ MarkowitzRef.Constr.budgetEq ∉ cs)

instance (cs : List MarkowitzRef.Constr) : Decidable (exactlyOneCashConvention cs) := by
  unfold exactlyOneCashConvention; infer_instance

/-!
## Helper lemmas
-/

namespace MarkowitzRef

theorem norm2_eq_norm {m : ℕ} (v : Fin m → ℝ) :
    norm2 v = ‖(WithLp.equiv 2 (Fin m → ℝ)).symm v‖ := by
  simp only [norm2]
  rw [EuclideanSpace.norm_eq]
  congr 1
  refine Finset.sum_congr rfl fun i _ => ?_
  rw [WithLp.equiv_symm_pi_apply, Real.norm_eq_abs, sq_abs]

theorem norm2two_eq_norm (a b : ℝ) : norm2two a b = ‖euclPair a b‖ := by
  simp only [norm2two, euclPair]
  rw [EuclideanSpace.norm_eq, Fin.sum_univ_two]
  simp [WithLp.equiv_symm_pi_apply, sq_abs]

theorem pospart_eq_max (x : ℝ) : pospart x = max 0 x := max_comm x 0

theorem rpow_half (x : ℝ) : x ^ (0.5 : ℝ) = Real.sqrt x := by
  rw [Real.sqrt_eq_rpow]; norm_num

end MarkowitzRef

/-!
## Claims
-/

/-- C1 (code_bug evidence): at a call whose solver status is `INFEASIBLE`
(a non-optimal-class status, with cvxpy leaving `w.value = c.value = None`),
`src/markowitz.py` returns the undefined pair `(None, None)` — not the
previous weights and cash, and with no success flag — and the experiments
variant raises `AttributeError` from its fallback branch instead of
returning `(w_prev, c_prev, problem, False)`. -/
theorem claim_C1 :
    Markowitz.solveReturn behaviorInfeasible = Except.ok (none, none) ∧
    MarkowitzExp.solveReturn behaviorInfeasible expDataZero =
      Except.error MarkowitzRef.PyError.attributeError := by
  exact ⟨rfl, rfl⟩

/-- C2, counterexample: when the external solve call raises
`cp.SolverError`, `src/markowitz.py`'s `markowitz` — whose `problem.solve()`
is not wrapped in any handler — propagates the fault to the caller as an
exception, contradicting the claim that a solver failure is always caught
and surfaced only as a SOLVER_ERROR status in the returned result. -/
theorem claim_C2_counterexample :
    Markowitz.solveReturn behaviorFault = Except.error MarkowitzRef.PyError.solverError := rfl

/-- C2, amended: in `src/markowitz.py` a `cp.SolverError` raised inside
`problem.solve()` propagates out of `markowitz` unhandled; in
`src/experiments/markowitz.py` the `cp.SolverError` is caught (its handler
only prints), so the result is the same as if `solve` had returned
normally with the same final problem status — no SOLVER_ERROR status is
recorded in the returned result. -/
theorem claim_C2 :
    (∀ {m : ℕ} (b : MarkowitzRef.SolveBehavior m), b.raises = true →
        Markowitz.solveReturn b = Except.error MarkowitzRef.PyError.solverError) ∧
    (∀ {m j : ℕ} (b : MarkowitzRef.SolveBehavior m) (d : MarkowitzExp.Data m j),
        MarkowitzExp.solveReturn b d =
          MarkowitzExp.solveReturn ⟨false, b.status, b.wVal, b.cVal⟩ d) := by
  constructor
  · intro m b h
    simp [Markowitz.solveReturn, h]
  · intro m j b d
    rfl

/-- C2, witness: the amended facts at the concrete faulting behavior. -/
theorem claim_C2_witness :
    Markowitz.solveReturn behaviorFault = Except.error MarkowitzRef.PyError.solverError ∧
    MarkowitzExp.solveReturn behaviorFault expDataZero =
      MarkowitzExp.solveReturn ⟨false, MarkowitzRef.Status.solver_error, none, none⟩ expDataZero :=
  ⟨claim_C2.1 behaviorFault rfl, claim_C2.2 behaviorFault expDataZero⟩

/-- C3, counterexample: the constraint list of `src/markowitz.py` does NOT
contain exactly one of the two cash-modeling conventions. -/
theorem claim_C3_counterexample :
    decide (exactlyOneCashConvention Markowitz.constraintsList) = false := by decide

/-- C3, amended: the constraint list of `src/markowitz.py` contains BOTH
cash-modeling conventions simultaneously — the budget constraint
`sum(w) + c == 1` and the cash-derivation constraint
`c == c_prev - sum(z)`; only the experiments file uses exactly one (the
budget constraint alone). -/
theorem claim_C3 :
    MarkowitzRef.Constr.budgetEq ∈ Markowitz.constraintsList ∧
    MarkowitzRef.Constr.cashTradeEq ∈ Markowitz.constraintsList ∧
    MarkowitzRef.Constr.budgetEq ∈ MarkowitzExp.constraintsList ∧
    MarkowitzRef.Constr.cashTradeEq ∉ MarkowitzExp.constraintsList := by decide

/-- C4, counterexample: the constraint list of `src/markowitz.py` contains
neither a turnover bound nor a risk bound (so certainly not both, as the
claim asserts of the constraint set built by `markowitz`). -/
theorem claim_C4_counterexample :
    decide (MarkowitzRef.Constr.turnoverLe ∈ Markowitz.constraintsList ∨
      MarkowitzRef.Constr.riskLe ∈ Markowitz.constraintsList) = false := by decide

/-- C4, amended: only the experiments `markowitz` enforces the turnover
bound and the risk bound as hard constraints (alongside its soft penalties);
the `src/markowitz.py` constraint set has the leverage bound but no hard
turnover or risk constraint. -/
theorem claim_C4 :
    MarkowitzRef.Constr.turnoverLe ∈ MarkowitzExp.constraintsList ∧
    MarkowitzRef.Constr.riskLe ∈ MarkowitzExp.constraintsList ∧
    MarkowitzRef.Constr.leverageLe ∈ Markowitz.constraintsList ∧
    MarkowitzRef.Constr.turnoverLe ∉ Markowitz.constraintsList ∧
    MarkowitzRef.Constr.riskLe ∉ Markowitz.constraintsList := by decide

/-- C8, counterexample: neither `markowitz` body contains a validation or
`raise` statement before its solve call, so no input with mismatched
dimensions is rejected before a solve attempt. -/
theorem claim_C8_counterexample :
    decide (MarkowitzRef.validatesUpFront Markowitz.body ∨
      MarkowitzRef.validatesUpFront MarkowitzExp.body) = false := by decide

/-- C8, amended: `markowitz` performs no up-front dimension validation in
either file: every statement before the solve call is an import or an
assignment (the linear-algebra construction), and each body does reach a
solve statement. -/
theorem claim_C8 :
    ((MarkowitzRef.preSolve Markowitz.body).all
        fun s => s == MarkowitzRef.Stmt.importStmt || s == MarkowitzRef.Stmt.assign) = true ∧
    ((MarkowitzRef.preSolve MarkowitzExp.body).all
        fun s => s == MarkowitzRef.Stmt.assign) = true ∧
    MarkowitzRef.Stmt.solveCall ∈ Markowitz.body ∧
    MarkowitzRef.Stmt.solveTryExcept ∈ MarkowitzExp.body := by decide

/-- C9: in `src/markowitz.py`, the two equality constraints
`sum(w) + c == 1` and `c == c_prev - sum(z)` (with `z = w - w_prev`) jointly
force `sum(w_prev) + c_prev = 1`; hence whenever the previous weights and
cash do not sum to 1 the feasible region of the built constraint set is
empty. -/
theorem claim_C9 :
    (∀ {m j : ℕ} (d : Markowitz.Data m j) (p : Markowitz.Parameters m)
        (w : Fin m → ℝ) (c : ℝ),
        Markowitz.feasible d p w c → (∑ i, d.w_prev i) + d.c_prev = 1) ∧
    (∀ {m j : ℕ} (d : Markowitz.Data m j) (p : Markowitz.Parameters m),
        (∑ i, d.w_prev i) + d.c_prev ≠ 1 → ¬ ∃ w c, Markowitz.feasible d p w c) := by
  have h1 : ∀ {m j : ℕ} (d : Markowitz.Data m j) (p : Markowitz.Parameters m)
      (w : Fin m → ℝ) (c : ℝ),
      Markowitz.feasible d p w c → (∑ i, d.w_prev i) + d.c_prev = 1 := by
    intro m j d p w c hf
    have hb := hf .budgetEq (by decide)
    have hc := hf .cashTradeEq (by decide)
    simp only [Markowitz.constrSat] at hb hc
    have hz : (∑ i, Markowitz.z d w i) = (∑ i, w i) - ∑ i, d.w_prev i := by
      simp [Markowitz.z, Finset.sum_sub_distrib]
    rw [hz] at hc
    linarith
  refine ⟨h1, ?_⟩
  intro m j d p hne h
  obtain ⟨w, c, hf⟩ := h
  exact hne (h1 d p w c hf)

/-- C9, witness: with previous weights summing to 0 and previous cash 2,
the constraint set of `src/markowitz.py` is infeasible. -/
theorem claim_C9_witness :
    ¬ ∃ w c, Markowitz.feasible srcDataSumTwo srcParamZero w c :=
  claim_C9.2 srcDataSumTwo srcParamZero (by
    norm_num [srcDataSumTwo, srcDataZero])

/-- C10: the experiments `Data` dataclass declares no `c_prev` field or
property, so whenever the solver status is not of the optimal class, the
fallback branch of the experiments `markowitz` — which evaluates
`data.c_prev` — terminates with an `AttributeError` instead of returning
the four-tuple `(w_prev, c_prev, problem, False)`. -/
theorem claim_C10 :
    ((MarkowitzExp.dataFieldNames ++ MarkowitzExp.dataPropertyNames).all
        fun s => !(s == "c_prev")) = true ∧
    (∀ {m j : ℕ} (b : MarkowitzRef.SolveBehavior m) (d : MarkowitzExp.Data m j),
        b.status.optimalClass = false →
        MarkowitzExp.solveReturn b d = Except.error MarkowitzRef.PyError.attributeError) := by
  constructor
  · decide
  · intro m j b d h
    simp only [MarkowitzExp.solveReturn]
    rw [if_neg (by simp [h]), if_neg (by decide)]

/-- C10, witness: the fallback at the concrete infeasible behavior. -/
theorem claim_C10_witness :
    MarkowitzExp.solveReturn behaviorInfeasible expDataZero =
      Except.error MarkowitzRef.PyError.attributeError :=
  claim_C10.2 behaviorInfeasible expDataZero rfl

namespace Markowitz

open MarkowitzRef

variable {n k : ℕ}

theorem factor_risk_eq_spec (d : Data n k) (w : Fin n → ℝ) :
    factor_risk d w = SpecModel.factorRisk d.F d.factor_covariance_chol w := by
  simp only [factor_risk, FC, SpecModel.factorRisk, norm2_eq_norm]

theorem idio_risk_eq_spec (d : Data n k) (w : Fin n → ℝ) :
    idio_risk d w = SpecModel.idioRisk d.idio_volas w := by
  simp only [idio_risk, SpecModel.idioRisk, norm2_eq_norm]

theorem risk_eq_spec (d : Data n k) (w : Fin n → ℝ) :
    risk d w = SpecModel.combinedRisk d.F d.factor_covariance_chol d.idio_volas w := by
  unfold risk SpecModel.combinedRisk
  rw [norm2two_eq_norm, factor_risk_eq_spec, idio_risk_eq_spec]

theorem volas_eq_spec (d : Data n k) :
    volas d = SpecModel.totalVola d.F d.factor_covariance_chol d.idio_volas := by
  funext i
  simp only [volas, factor_volas, FC, SpecModel.totalVola, norm2_eq_norm]
  exact add_comm _ _

theorem risk_uncertainty_eq_spec (d : Data n k) (p : Parameters n) (w : Fin n → ℝ) :
    risk_uncertainty d p w =
      SpecModel.riskUncertainty d.F d.factor_covariance_chol d.idio_volas
        p.rho_covariance w := by
  simp only [risk_uncertainty, SpecModel.riskUncertainty, dot, rpow_half, volas_eq_spec]

theorem risk_wc_eq_spec (d : Data n k) (p : Parameters n) (w : Fin n → ℝ) :
    risk_wc d p w =
      SpecModel.riskWC d.F d.factor_covariance_chol d.idio_volas p.rho_covariance w := by
  unfold risk_wc SpecModel.riskWC
  rw [norm2two_eq_norm, risk_eq_spec, risk_uncertainty_eq_spec]

theorem return_wc_eq_spec (d : Data n k) (p : Parameters n) (w : Fin n → ℝ) (c : ℝ) :
    return_wc d p w c =
      SpecModel.returnWC d.F d.factor_mean d.idio_mean d.risk_free p.rho_mean w c := by
  simp only [return_wc, mean_return, factor_return, idio_return, return_uncertainty,
    dot, SpecModel.returnWC]

theorem holding_cost_eq_spec (d : Data n k) (w : Fin n → ℝ) (c : ℝ) :
    holding_cost d w c = SpecModel.holdingCost d.kappa_short d.kappa_borrow w c := by
  simp only [holding_cost, asset_holding_cost, cash_holding_cost, dot,
    SpecModel.holdingCost, pospart_eq_max]

theorem trading_cost_eq_spec (d : Data n k) (w : Fin n → ℝ) :
    trading_cost d w = SpecModel.tradingCost d.kappa_spread d.kappa_impact d.w_prev w := by
  simp only [trading_cost, spread_cost, impact_cost, dot, z, SpecModel.tradingCost]
  norm_num

end Markowitz

namespace MarkowitzExp

open MarkowitzRef

variable {n k : ℕ}

theorem exp_factor_risk_eq_spec (d : Data n k) (w : Fin n → ℝ) :
    factor_risk d w = SpecModel.factorRisk d.F d.factor_covariance_chol w := by
  simp only [factor_risk, FC, SpecModel.factorRisk, norm2_eq_norm]

theorem exp_idio_risk_eq_spec (d : Data n k) (w : Fin n → ℝ) :
    idio_risk d w = SpecModel.idioRisk d.idio_volas w := by
  simp only [idio_risk, SpecModel.idioRisk, norm2_eq_norm]

theorem exp_risk_eq_spec (d : Data n k) (w : Fin n → ℝ) :
    risk d w = SpecModel.combinedRisk d.F d.factor_covariance_chol d.idio_volas w := by
  unfold risk SpecModel.combinedRisk
  rw [norm2two_eq_norm, exp_factor_risk_eq_spec, exp_idio_risk_eq_spec]

theorem exp_volas_eq_spec (d : Data n k) :
    volas d = SpecModel.totalVola d.F d.factor_covariance_chol d.idio_volas := by
  funext i
  simp only [volas, FC, SpecModel.totalVola, norm2_eq_norm]

theorem exp_risk_uncertainty_eq_spec (d : Data n k) (p : Parameters n) (w : Fin n → ℝ) :
    risk_uncertainty d p w =
      SpecModel.riskUncertainty d.F d.factor_covariance_chol d.idio_volas
        p.rho_covariance w := by
  simp only [risk_uncertainty, SpecModel.riskUncertainty, dot, rpow_half, exp_volas_eq_spec]

theorem exp_risk_wc_eq_spec (d : Data n k) (p : Parameters n) (w : Fin n → ℝ) :
    risk_wc d p w =
      SpecModel.riskWC d.F d.factor_covariance_chol d.idio_volas p.rho_covariance w := by
  unfold risk_wc SpecModel.riskWC
  rw [norm2two_eq_norm, exp_risk_eq_spec, exp_risk_uncertainty_eq_spec]

theorem exp_return_wc_eq_spec (d : Data n k) (p : Parameters n) (w : Fin n → ℝ) (c : ℝ) :
    return_wc d p w c =
      SpecModel.returnWC d.F d.factor_mean d.idio_mean d.risk_free p.rho_mean w c := by
  simp only [return_wc, dot, SpecModel.returnWC]

theorem exp_holding_cost_eq_spec (d : Data n k) (w : Fin n → ℝ) (c : ℝ) :
    holding_cost d w c = SpecModel.holdingCost d.kappa_short d.kappa_borrow w c := by
  simp only [holding_cost, dot, SpecModel.holdingCost, pospart_eq_max]

theorem exp_trading_cost_eq_spec (d : Data n k) (w : Fin n → ℝ) :
    trading_cost d w = SpecModel.tradingCost d.kappa_spread d.kappa_impact d.w_prev w := by
  simp only [trading_cost, dot, z, SpecModel.tradingCost]
  norm_num

end MarkowitzExp

/-- C5: the scalar objective each `markowitz` hands to `cp.Maximize` equals
the specification's ObjectiveBuilder formula — `return_wc` minus
`γ_risk·max(0, risk_wc − risk_target)` minus `γ_hold·holding_cost` minus
`γ_trade·trading_cost` minus `γ_turn·max(0, turnover − turnover_limit)`,
the experiments variant additionally minus
`γ_leverage·max(0, leverage − leverage_limit)` — with every subterm defined
by the specification's own words (`SpecModel`). -/
theorem claim_C5 :
    (∀ (m j : ℕ) (d : Markowitz.Data m j) (p : Markowitz.Parameters m)
        (w : Fin m → ℝ) (c : ℝ),
      Markowitz.objective d p w c =
        SpecModel.formula p.gamma_risk p.gamma_hold p.gamma_trade p.gamma_turn
          p.risk_target p.T_max
          (SpecModel.returnWC d.F d.factor_mean d.idio_mean d.risk_free p.rho_mean w c)
          (SpecModel.riskWC d.F d.factor_covariance_chol d.idio_volas p.rho_covariance w)
          (SpecModel.holdingCost d.kappa_short d.kappa_borrow w c)
          (SpecModel.tradingCost d.kappa_spread d.kappa_impact d.w_prev w)
          (Markowitz.T d w)) ∧
    (∀ (m j : ℕ) (d : MarkowitzExp.Data m j) (p : MarkowitzExp.Parameters m)
        (Tm Lm : ℝ) (w : Fin m → ℝ) (c : ℝ),
      MarkowitzExp.objective d p Tm Lm w c =
        SpecModel.formulaLev p.gamma_risk p.gamma_hold p.gamma_trade p.gamma_turn
          p.gamma_leverage p.risk_target Tm Lm
          (SpecModel.returnWC d.F d.factor_mean d.idio_mean d.risk_free p.rho_mean w c)
          (SpecModel.riskWC d.F d.factor_covariance_chol d.idio_volas p.rho_covariance w)
          (SpecModel.holdingCost d.kappa_short d.kappa_borrow w c)
          (SpecModel.tradingCost d.kappa_spread d.kappa_impact d.w_prev w)
          (MarkowitzExp.T d w) (MarkowitzExp.L w)) := by
  constructor
  · intro m j d p w c
    simp only [Markowitz.objective, SpecModel.formula,
      Markowitz.return_wc_eq_spec, Markowitz.risk_wc_eq_spec,
      Markowitz.holding_cost_eq_spec, Markowitz.trading_cost_eq_spec,
      MarkowitzRef.pospart_eq_max]
  · intro m j d p Tm Lm w c
    simp only [MarkowitzExp.objective, SpecModel.formulaLev, SpecModel.formula,
      MarkowitzExp.exp_return_wc_eq_spec, MarkowitzExp.exp_risk_wc_eq_spec,
      MarkowitzExp.exp_holding_cost_eq_spec, MarkowitzExp.exp_trading_cost_eq_spec,
      MarkowitzRef.pospart_eq_max]

/-- C6: in the risk expression of `src/markowitz.py`, the combined risk is
the Euclidean norm of the 2-vector (factor risk, idiosyncratic risk) — and
at unit data it differs from the sum of the two risks — and `risk_wc` is
the Euclidean norm of the 2-vector (combined risk, risk uncertainty),
where the risk uncertainty is sqrt(covariance-uncertainty scale) times the
dot product of the total per-asset volatility with |weights|. -/
theorem claim_C6 :
    (∀ (m j : ℕ) (d : Markowitz.Data m j) (w : Fin m → ℝ),
      Markowitz.risk d w =
        ‖MarkowitzRef.euclPair (Markowitz.factor_risk d w) (Markowitz.idio_risk d w)‖) ∧
    (∀ (m j : ℕ) (d : Markowitz.Data m j) (p : Markowitz.Parameters m) (w : Fin m → ℝ),
      Markowitz.risk_wc d p w =
        ‖MarkowitzRef.euclPair (Markowitz.risk d w) (Markowitz.risk_uncertainty d p w)‖) ∧
    (∀ (m j : ℕ) (d : Markowitz.Data m j) (p : Markowitz.Parameters m) (w : Fin m → ℝ),
      Markowitz.risk_uncertainty d p w =
        SpecModel.riskUncertainty d.F d.factor_covariance_chol d.idio_volas
          p.rho_covariance w) ∧
    Markowitz.risk srcDataUnit (fun _ => 1) ≠
      Markowitz.factor_risk srcDataUnit (fun _ => 1)
        + Markowitz.idio_risk srcDataUnit (fun _ => 1) := by
  refine ⟨?_, ?_, ?_, ?_⟩
  · intro m j d w
    exact MarkowitzRef.norm2two_eq_norm _ _
  · intro m j d p w
    exact MarkowitzRef.norm2two_eq_norm _ _
  · intro m j d p w
    exact Markowitz.risk_uncertainty_eq_spec d p w
  · have hfr : Markowitz.factor_risk srcDataUnit (fun _ => 1) = 1 := by
      simp [Markowitz.factor_risk, Markowitz.FC, srcDataUnit, srcDataZero,
        MarkowitzRef.norm2, Fin.sum_univ_one]
    have hir : Markowitz.idio_risk srcDataUnit (fun _ => 1) = 1 := by
      simp [Markowitz.idio_risk, srcDataUnit, srcDataZero,
        MarkowitzRef.norm2, Fin.sum_univ_one]
    rw [Markowitz.risk, hfr, hir]
    intro h
    have h2 := Real.sq_sqrt (by norm_num : (0 : ℝ) ≤ 1 ^ 2 + 1 ^ 2)
    rw [MarkowitzRef.norm2two] at h
    rw [h] at h2
    norm_num at h2

namespace MarkowitzRef

theorem norm2_nonneg {m : ℕ} (u : Fin m → ℝ) : 0 ≤ norm2 u := Real.sqrt_nonneg _

theorem norm2two_nonneg (a b : ℝ) : 0 ≤ norm2two a b := Real.sqrt_nonneg _

theorem norm2_add_le {m : ℕ} (u v : Fin m → ℝ) :
    norm2 (fun j => u j + v j) ≤ norm2 u + norm2 v := by
  unfold norm2
  have hP : (0 : ℝ) ≤ Real.sqrt (∑ j, (u j) ^ 2) := Real.sqrt_nonneg _
  have hQ : (0 : ℝ) ≤ Real.sqrt (∑ j, (v j) ^ 2) := Real.sqrt_nonneg _
  have hP2 : (Real.sqrt (∑ j, (u j) ^ 2)) ^ 2 = ∑ j, (u j) ^ 2 :=
    Real.sq_sqrt (Finset.sum_nonneg fun j _ => sq_nonneg _)
  have hQ2 : (Real.sqrt (∑ j, (v j) ^ 2)) ^ 2 = ∑ j, (v j) ^ 2 :=
    Real.sq_sqrt (Finset.sum_nonneg fun j _ => sq_nonneg _)
  have hcs := Real.sum_mul_le_sqrt_mul_sqrt Finset.univ u v
  have hid : (∑ j, (u j + v j) ^ 2)
      = (∑ j, (u j) ^ 2) + 2 * (∑ j, u j * v j) + ∑ j, (v j) ^ 2 := by
    rw [Finset.mul_sum, ← Finset.sum_add_distrib, ← Finset.sum_add_distrib]
    exact Finset.sum_congr rfl fun j _ => by ring
  have hexp : (∑ j, (u j + v j) ^ 2)
      ≤ (Real.sqrt (∑ j, (u j) ^ 2) + Real.sqrt (∑ j, (v j) ^ 2)) ^ 2 := by
    rw [hid]
    nlinarith [hcs, hP2, hQ2]
  calc Real.sqrt (∑ j, (u j + v j) ^ 2)
      ≤ Real.sqrt ((Real.sqrt (∑ j, (u j) ^ 2) + Real.sqrt (∑ j, (v j) ^ 2)) ^ 2) :=
        Real.sqrt_le_sqrt hexp
    _ = _ := Real.sqrt_sq (by linarith)

theorem norm2_smul_nonneg {m : ℕ} (t : ℝ) (ht : 0 ≤ t) (u : Fin m → ℝ) :
    norm2 (fun j => t * u j) = t * norm2 u := by
  unfold norm2
  have hid : (∑ j, (t * u j) ^ 2) = t ^ 2 * ∑ j, (u j) ^ 2 := by
    rw [Finset.mul_sum]
    exact Finset.sum_congr rfl fun j _ => by ring
  rw [hid, Real.sqrt_mul (sq_nonneg t), Real.sqrt_sq ht]

theorem norm2two_mono {a a' b b' : ℝ} (ha : 0 ≤ a) (haa : a ≤ a') (hb : 0 ≤ b)
    (hbb : b ≤ b') : norm2two a b ≤ norm2two a' b' := by
  unfold norm2two
  exact Real.sqrt_le_sqrt
    (add_le_add (pow_le_pow_left₀ ha haa 2) (pow_le_pow_left₀ hb hbb 2))

theorem norm2two_add_le (a b c d : ℝ) :
    norm2two (a + c) (b + d) ≤ norm2two a b + norm2two c d := by
  unfold norm2two
  have hP : (0 : ℝ) ≤ Real.sqrt (a ^ 2 + b ^ 2) := Real.sqrt_nonneg _
  have hQ : (0 : ℝ) ≤ Real.sqrt (c ^ 2 + d ^ 2) := Real.sqrt_nonneg _
  have hP2 : (Real.sqrt (a ^ 2 + b ^ 2)) ^ 2 = a ^ 2 + b ^ 2 :=
    Real.sq_sqrt (by positivity)
  have hQ2 : (Real.sqrt (c ^ 2 + d ^ 2)) ^ 2 = c ^ 2 + d ^ 2 :=
    Real.sq_sqrt (by positivity)
  have hcs := Real.sum_mul_le_sqrt_mul_sqrt Finset.univ ![a, b] ![c, d]
  simp only [Fin.sum_univ_two, Matrix.cons_val_zero, Matrix.cons_val_one,
    Matrix.head_cons] at hcs
  have hexp : (a + c) ^ 2 + (b + d) ^ 2
      ≤ (Real.sqrt (a ^ 2 + b ^ 2) + Real.sqrt (c ^ 2 + d ^ 2)) ^ 2 := by
    nlinarith [hcs, hP2, hQ2]
  calc Real.sqrt ((a + c) ^ 2 + (b + d) ^ 2)
      ≤ Real.sqrt ((Real.sqrt (a ^ 2 + b ^ 2) + Real.sqrt (c ^ 2 + d ^ 2)) ^ 2) :=
        Real.sqrt_le_sqrt hexp
    _ = _ := Real.sqrt_sq (by linarith)

theorem norm2two_smul (t : ℝ) (ht : 0 ≤ t) (a b : ℝ) :
    norm2two (t * a) (t * b) = t * norm2two a b := by
  unfold norm2two
  have hid : (t * a) ^ 2 + (t * b) ^ 2 = t ^ 2 * (a ^ 2 + b ^ 2) := by ring
  rw [hid, Real.sqrt_mul (sq_nonneg t), Real.sqrt_sq ht]

end MarkowitzRef

namespace ConvexHelpers

theorem sum_mul_combo {m : ℕ} (coef u v : Fin m → ℝ) (a b : ℝ) :
    (∑ i, coef i * (a * u i + b * v i))
      = a * (∑ i, coef i * u i) + b * (∑ i, coef i * v i) := by
  rw [Finset.mul_sum, Finset.mul_sum, ← Finset.sum_add_distrib]
  exact Finset.sum_congr rfl fun i _ => by ring

variable {E : Type*} [AddCommGroup E] [Module ℝ E]

theorem convexOn_of_sublinear (f : E → ℝ)
    (hadd : ∀ x y, f (x + y) ≤ f x + f y)
    (hsmul : ∀ (t : ℝ) (x : E), 0 ≤ t → f (t • x) = t * f x) :
    ConvexOn ℝ Set.univ f := by
  refine ⟨convex_univ, fun x _ y _ a b ha hb _ => ?_⟩
  calc f (a • x + b • y) ≤ f (a • x) + f (b • y) := hadd _ _
    _ = a * f x + b * f y := by rw [hsmul a x ha, hsmul b y hb]
    _ = a • f x + b • f y := by simp [smul_eq_mul]

theorem concaveOn_of_affine_eq (f : E → ℝ)
    (hf : ∀ (a b : ℝ) (x y : E), a + b = 1 → f (a • x + b • y) = a * f x + b * f y) :
    ConcaveOn ℝ Set.univ f := by
  refine ⟨convex_univ, fun x _ y _ a b _ _ hab => ?_⟩
  rw [hf a b x y hab]
  simp [smul_eq_mul]

theorem convexOn_comp_affine (φ : ℝ → ℝ) (hφ : ConvexOn ℝ Set.univ φ) (A : E → ℝ)
    (hA : ∀ (a b : ℝ) (x y : E), a + b = 1 → A (a • x + b • y) = a * A x + b * A y) :
    ConvexOn ℝ Set.univ fun x => φ (A x) := by
  refine ⟨convex_univ, fun x _ y _ a b ha hb hab => ?_⟩
  show φ (A (a • x + b • y)) ≤ a • φ (A x) + b • φ (A y)
  rw [hA a b x y hab]
  have h := hφ.2 (Set.mem_univ (A x)) (Set.mem_univ (A y)) ha hb hab
  simpa [smul_eq_mul] using h

theorem convexOn_pospart : ConvexOn ℝ Set.univ MarkowitzRef.pospart := by
  refine ⟨convex_univ, fun x _ y _ a b ha hb hab => ?_⟩
  simp only [MarkowitzRef.pospart, smul_eq_mul]
  refine max_le ?_ ?_
  · have h1 : x ≤ max x 0 := le_max_left _ _
    have h2 : y ≤ max y 0 := le_max_left _ _
    have h3 := mul_le_mul_of_nonneg_left h1 ha
    have h4 := mul_le_mul_of_nonneg_left h2 hb
    linarith
  · exact add_nonneg (mul_nonneg ha (le_max_right _ _)) (mul_nonneg hb (le_max_right _ _))

theorem convexOn_pospart_sub (f : E → ℝ) (hf : ConvexOn ℝ Set.univ f) (t : ℝ) :
    ConvexOn ℝ Set.univ fun x => MarkowitzRef.pospart (f x - t) := by
  refine ⟨convex_univ, fun x _ y _ a b ha hb hab => ?_⟩
  simp only [MarkowitzRef.pospart, smul_eq_mul]
  have hfc := hf.2 (Set.mem_univ x) (Set.mem_univ y) ha hb hab
  simp only [smul_eq_mul] at hfc
  have ht : a * t + b * t = t := by rw [← add_mul, hab, one_mul]
  refine max_le ?_ ?_
  · have h1 := mul_le_mul_of_nonneg_left (le_max_left (f x - t) 0) ha
    have h2 := mul_le_mul_of_nonneg_left (le_max_left (f y - t) 0) hb
    linarith
  · exact add_nonneg (mul_nonneg ha (le_max_right _ _)) (mul_nonneg hb (le_max_right _ _))

theorem convexOn_mul_const (γ : ℝ) (hγ : 0 ≤ γ) (g : E → ℝ)
    (hg : ConvexOn ℝ Set.univ g) : ConvexOn ℝ Set.univ fun x => γ * g x := by
  refine ⟨convex_univ, fun x _ y _ a b ha hb hab => ?_⟩
  have h := hg.2 (Set.mem_univ x) (Set.mem_univ y) ha hb hab
  simp only [smul_eq_mul] at h ⊢
  calc γ * g (a • x + b • y) ≤ γ * (a * g x + b * g y) := mul_le_mul_of_nonneg_left h hγ
    _ = a * (γ * g x) + b * (γ * g y) := by ring

theorem convexOn_add_fun (f g : E → ℝ) (hf : ConvexOn ℝ Set.univ f)
    (hg : ConvexOn ℝ Set.univ g) : ConvexOn ℝ Set.univ fun x => f x + g x := by
  refine ⟨convex_univ, fun x _ y _ a b ha hb hab => ?_⟩
  have h1 := hf.2 (Set.mem_univ x) (Set.mem_univ y) ha hb hab
  have h2 := hg.2 (Set.mem_univ x) (Set.mem_univ y) ha hb hab
  simp only [smul_eq_mul] at h1 h2 ⊢
  linarith

theorem concaveOn_sub_fun (f g : E → ℝ) (hf : ConcaveOn ℝ Set.univ f)
    (hg : ConvexOn ℝ Set.univ g) : ConcaveOn ℝ Set.univ fun x => f x - g x := by
  refine ⟨convex_univ, fun x _ y _ a b ha hb hab => ?_⟩
  have h1 := hf.2 (Set.mem_univ x) (Set.mem_univ y) ha hb hab
  have h2 := hg.2 (Set.mem_univ x) (Set.mem_univ y) ha hb hab
  simp only [smul_eq_mul] at h1 h2 ⊢
  linarith

theorem convexOn_sum_smul {ι : Type*} (s : Finset ι) (κ : ι → ℝ) (f : ι → E → ℝ)
    (hκ : ∀ i ∈ s, 0 ≤ κ i) (hf : ∀ i ∈ s, ConvexOn ℝ Set.univ (f i)) :
    ConvexOn ℝ Set.univ fun x => ∑ i ∈ s, κ i * f i x := by
  refine ⟨convex_univ, fun x _ y _ a b ha hb hab => ?_⟩
  simp only [smul_eq_mul]
  calc (∑ i ∈ s, κ i * f i (a • x + b • y))
      ≤ ∑ i ∈ s, κ i * (a * f i x + b * f i y) := by
        refine Finset.sum_le_sum fun i hi => mul_le_mul_of_nonneg_left ?_ (hκ i hi)
        have h := (hf i hi).2 (Set.mem_univ x) (Set.mem_univ y) ha hb hab
        simpa [smul_eq_mul] using h
    _ = a * (∑ i ∈ s, κ i * f i x) + b * (∑ i ∈ s, κ i * f i y) := by
        rw [Finset.mul_sum, Finset.mul_sum, ← Finset.sum_add_distrib]
        exact Finset.sum_congr rfl fun i _ => by ring

theorem convexOn_sum_fun {ι : Type*} (s : Finset ι) (f : ι → E → ℝ)
    (hf : ∀ i ∈ s, ConvexOn ℝ Set.univ (f i)) :
    ConvexOn ℝ Set.univ fun x => ∑ i ∈ s, f i x := by
  refine ⟨convex_univ, fun x _ y _ a b ha hb hab => ?_⟩
  simp only [smul_eq_mul]
  calc (∑ i ∈ s, f i (a • x + b • y))
      ≤ ∑ i ∈ s, (a * f i x + b * f i y) := by
        refine Finset.sum_le_sum fun i hi => ?_
        have h := (hf i hi).2 (Set.mem_univ x) (Set.mem_univ y) ha hb hab
        simpa [smul_eq_mul] using h
    _ = a * (∑ i ∈ s, f i x) + b * (∑ i ∈ s, f i y) := by
        rw [Finset.mul_sum, Finset.mul_sum, ← Finset.sum_add_distrib]

theorem convexOn_abs_rpow {p : ℝ} (hp : 1 ≤ p) :
    ConvexOn ℝ Set.univ fun t : ℝ => |t| ^ p := by
  refine ⟨convex_univ, fun x _ y _ a b ha hb hab => ?_⟩
  simp only [smul_eq_mul]
  have h1 : |a * x + b * y| ≤ a * |x| + b * |y| := by
    calc |a * x + b * y| ≤ |a * x| + |b * y| := abs_add _ _
      _ = a * |x| + b * |y| := by
          rw [abs_mul, abs_mul, abs_of_nonneg ha, abs_of_nonneg hb]
  have h2 : |a * x + b * y| ^ p ≤ (a * |x| + b * |y|) ^ p :=
    Real.rpow_le_rpow (abs_nonneg _) h1 (le_trans zero_le_one hp)
  have h3 := (convexOn_rpow hp).2 (Set.mem_Ici.mpr (abs_nonneg x))
    (Set.mem_Ici.mpr (abs_nonneg y)) ha hb hab
  simp only [smul_eq_mul] at h3
  exact le_trans h2 h3

theorem convexOn_abs_fun : ConvexOn ℝ Set.univ fun t : ℝ => |t| := by
  simpa [Real.norm_eq_abs] using convexOn_univ_norm (E := ℝ)

end ConvexHelpers

namespace Markowitz

open MarkowitzRef

variable {n k : ℕ}

theorem factor_risk_nonneg (d : Data n k) (w : Fin n → ℝ) : 0 ≤ factor_risk d w :=
  Real.sqrt_nonneg _

theorem idio_risk_nonneg (d : Data n k) (w : Fin n → ℝ) : 0 ≤ idio_risk d w :=
  Real.sqrt_nonneg _

theorem risk_nonneg (d : Data n k) (w : Fin n → ℝ) : 0 ≤ risk d w :=
  Real.sqrt_nonneg _

theorem volas_nonneg (d : Data n k) (hv : ∀ i, 0 ≤ d.idio_volas i) (i : Fin n) :
    0 ≤ volas d i :=
  add_nonneg (Real.sqrt_nonneg _) (hv i)

theorem factor_risk_add_le (d : Data n k) (x y : Fin n → ℝ) :
    factor_risk d (x + y) ≤ factor_risk d x + factor_risk d y := by
  have h : (fun j => ∑ i, FC d i j * (x + y) i)
      = fun j => (∑ i, FC d i j * x i) + ∑ i, FC d i j * y i := by
    funext jj
    rw [← Finset.sum_add_distrib]
    exact Finset.sum_congr rfl fun i _ => by
      simp only [Pi.add_apply]
      ring
  unfold factor_risk
  rw [h]
  exact norm2_add_le _ _

theorem factor_risk_smul (d : Data n k) (t : ℝ) (ht : 0 ≤ t) (x : Fin n → ℝ) :
    factor_risk d (t • x) = t * factor_risk d x := by
  have h : (fun j => ∑ i, FC d i j * (t • x) i)
      = fun j => t * ∑ i, FC d i j * x i := by
    funext jj
    rw [Finset.mul_sum]
    exact Finset.sum_congr rfl fun i _ => by
      simp only [Pi.smul_apply, smul_eq_mul]
      ring
  unfold factor_risk
  rw [h]
  exact norm2_smul_nonneg t ht _

theorem idio_risk_add_le (d : Data n k) (x y : Fin n → ℝ) :
    idio_risk d (x + y) ≤ idio_risk d x + idio_risk d y := by
  have h : (fun i => d.idio_volas i * (x + y) i)
      = fun i => d.idio_volas i * x i + d.idio_volas i * y i := by
    funext i
    simp only [Pi.add_apply]
    ring
  unfold idio_risk
  rw [h]
  exact norm2_add_le _ _

theorem idio_risk_smul (d : Data n k) (t : ℝ) (ht : 0 ≤ t) (x : Fin n → ℝ) :
    idio_risk d (t • x) = t * idio_risk d x := by
  have h : (fun i => d.idio_volas i * (t • x) i)
      = fun i => t * (d.idio_volas i * x i) := by
    funext i
    simp only [Pi.smul_apply, smul_eq_mul]
    ring
  unfold idio_risk
  rw [h]
  exact norm2_smul_nonneg t ht _

theorem risk_add_le (d : Data n k) (x y : Fin n → ℝ) :
    risk d (x + y) ≤ risk d x + risk d y := by
  unfold risk
  calc norm2two (factor_risk d (x + y)) (idio_risk d (x + y))
      ≤ norm2two (factor_risk d x + factor_risk d y)
          (idio_risk d x + idio_risk d y) :=
        norm2two_mono (factor_risk_nonneg d _) (factor_risk_add_le d x y)
          (idio_risk_nonneg d _) (idio_risk_add_le d x y)
    _ ≤ _ := norm2two_add_le _ _ _ _

theorem risk_smul (d : Data n k) (t : ℝ) (ht : 0 ≤ t) (x : Fin n → ℝ) :
    risk d (t • x) = t * risk d x := by
  unfold risk
  rw [factor_risk_smul d t ht, idio_risk_smul d t ht]
  exact norm2two_smul t ht _ _

theorem risk_uncertainty_nonneg (d : Data n k) (p : Parameters n)
    (hv : ∀ i, 0 ≤ d.idio_volas i) (hc : 0 ≤ p.rho_covariance) (w : Fin n → ℝ) :
    0 ≤ risk_uncertainty d p w := by
  unfold risk_uncertainty dot
  exact mul_nonneg (Real.rpow_nonneg hc _)
    (Finset.sum_nonneg fun i _ => mul_nonneg (volas_nonneg d hv i) (abs_nonneg _))

theorem risk_uncertainty_add_le (d : Data n k) (p : Parameters n)
    (hv : ∀ i, 0 ≤ d.idio_volas i) (hc : 0 ≤ p.rho_covariance) (x y : Fin n → ℝ) :
    risk_uncertainty d p (x + y) ≤ risk_uncertainty d p x + risk_uncertainty d p y := by
  unfold risk_uncertainty dot
  have hs : (0 : ℝ) ≤ p.rho_covariance ^ (0.5 : ℝ) := Real.rpow_nonneg hc _
  have h1 : (∑ i, volas d i * |(x + y) i|)
      ≤ ∑ i, volas d i * (|x i| + |y i|) := by
    refine Finset.sum_le_sum fun i _ => mul_le_mul_of_nonneg_left ?_ (volas_nonneg d hv i)
    simp only [Pi.add_apply]
    exact abs_add _ _
  have h2 : (∑ i, volas d i * (|x i| + |y i|))
      = (∑ i, volas d i * |x i|) + ∑ i, volas d i * |y i| := by
    rw [← Finset.sum_add_distrib]
    exact Finset.sum_congr rfl fun i _ => by ring
  calc p.rho_covariance ^ (0.5 : ℝ) * ∑ i, volas d i * |(x + y) i|
      ≤ p.rho_covariance ^ (0.5 : ℝ) * ∑ i, volas d i * (|x i| + |y i|) :=
        mul_le_mul_of_nonneg_left h1 hs
    _ = _ := by rw [h2, mul_add]

theorem risk_uncertainty_smul (d : Data n k) (p : Parameters n) (t : ℝ) (ht : 0 ≤ t)
    (x : Fin n → ℝ) : risk_uncertainty d p (t • x) = t * risk_uncertainty d p x := by
  unfold risk_uncertainty dot
  have h : (∑ i, volas d i * |(t • x) i|) = t * ∑ i, volas d i * |x i| := by
    rw [Finset.mul_sum]
    refine Finset.sum_congr rfl fun i _ => ?_
    simp only [Pi.smul_apply, smul_eq_mul, abs_mul, abs_of_nonneg ht]
    ring
  rw [h]
  ring

theorem risk_wc_add_le (d : Data n k) (p : Parameters n)
    (hv : ∀ i, 0 ≤ d.idio_volas i) (hc : 0 ≤ p.rho_covariance) (x y : Fin n → ℝ) :
    risk_wc d p (x + y) ≤ risk_wc d p x + risk_wc d p y := by
  unfold risk_wc
  calc norm2two (risk d (x + y)) (risk_uncertainty d p (x + y))
      ≤ norm2two (risk d x + risk d y)
          (risk_uncertainty d p x + risk_uncertainty d p y) :=
        norm2two_mono (risk_nonneg d _) (risk_add_le d x y)
          (risk_uncertainty_nonneg d p hv hc _)
          (risk_uncertainty_add_le d p hv hc x y)
    _ ≤ _ := norm2two_add_le _ _ _ _

theorem risk_wc_smul (d : Data n k) (p : Parameters n) (t : ℝ) (ht : 0 ≤ t)
    (x : Fin n → ℝ) : risk_wc d p (t • x) = t * risk_wc d p x := by
  unfold risk_wc
  rw [risk_smul d t ht, risk_uncertainty_smul d p t ht]
  exact norm2two_smul t ht _ _

end Markowitz

/-- C7: for every data and parameter record whose cost and penalty
coefficients — shorting, borrowing, spread, impact, return-uncertainty and
covariance-uncertainty coefficients and the gamma penalty weights — are
nonnegative (together with the nonnegative idiosyncratic volatilities that
§3 of the specification makes an invariant of every MarketState), the
objective assembled by `src/markowitz.py`, viewed as a function of the pair
(weights, cash), is concave. -/
theorem claim_C7 :
    ∀ (m j : ℕ) (d : Markowitz.Data m j) (p : Markowitz.Parameters m),
    (∀ i, 0 ≤ d.kappa_short i) → 0 ≤ d.kappa_borrow →
    (∀ i, 0 ≤ d.kappa_spread i) → (∀ i, 0 ≤ d.kappa_impact i) →
    (∀ i, 0 ≤ d.idio_volas i) → (∀ i, 0 ≤ p.rho_mean i) → 0 ≤ p.rho_covariance →
    0 ≤ p.gamma_hold → 0 ≤ p.gamma_trade → 0 ≤ p.gamma_turn → 0 ≤ p.gamma_risk →
    ConcaveOn ℝ Set.univ
      (fun q : (Fin m → ℝ) × ℝ => Markowitz.objective d p q.1 q.2) := by
  intro m j d p hks hkb hsp himp hv hrm hrc hγh hγt hγturn hγr
  have hmean : ConcaveOn ℝ Set.univ
      (fun q : (Fin m → ℝ) × ℝ => Markowitz.mean_return d q.1 q.2) := by
    refine ConvexHelpers.concaveOn_of_affine_eq _ ?_
    intro a b x y hab
    simp only [Markowitz.mean_return, Markowitz.factor_return, Markowitz.idio_return,
      MarkowitzRef.dot, Prod.fst_add, Prod.smul_fst, Prod.snd_add, Prod.smul_snd,
      Pi.add_apply, Pi.smul_apply, smul_eq_mul]
    rw [ConvexHelpers.sum_mul_combo, ConvexHelpers.sum_mul_combo]
    ring
  have habs : ∀ i : Fin m, ConvexOn ℝ Set.univ
      (fun q : (Fin m → ℝ) × ℝ => |q.1 i|) := by
    intro i
    refine ConvexHelpers.convexOn_comp_affine _ ConvexHelpers.convexOn_abs_fun
      (fun q : (Fin m → ℝ) × ℝ => q.1 i) ?_
    intro a b x y hab
    simp [Prod.fst_add, Prod.smul_fst, Pi.add_apply, Pi.smul_apply, smul_eq_mul]
  have hru : ConvexOn ℝ Set.univ
      (fun q : (Fin m → ℝ) × ℝ => Markowitz.return_uncertainty p q.1) :=
    ConvexHelpers.convexOn_sum_smul Finset.univ p.rho_mean
      (fun i (q : (Fin m → ℝ) × ℝ) => |q.1 i|) (fun i _ => hrm i) (fun i _ => habs i)
  have hretwc : ConcaveOn ℝ Set.univ
      (fun q : (Fin m → ℝ) × ℝ => Markowitz.return_wc d p q.1 q.2) :=
    ConvexHelpers.concaveOn_sub_fun _ _ hmean hru
  have hriskwc : ConvexOn ℝ Set.univ
      (fun q : (Fin m → ℝ) × ℝ => Markowitz.risk_wc d p q.1) := by
    refine ConvexHelpers.convexOn_of_sublinear _ ?_ ?_
    · intro x y
      show Markowitz.risk_wc d p (x + y).1 ≤ _
      rw [Prod.fst_add]
      exact Markowitz.risk_wc_add_le d p hv hrc x.1 y.1
    · intro t x ht
      show Markowitz.risk_wc d p (t • x).1 = _
      rw [Prod.smul_fst]
      exact Markowitz.risk_wc_smul d p t ht x.1
  have hhinge1 : ConvexOn ℝ Set.univ
      (fun q : (Fin m → ℝ) × ℝ => p.gamma_risk *
        MarkowitzRef.pospart (Markowitz.risk_wc d p q.1 - p.risk_target)) :=
    ConvexHelpers.convexOn_mul_const _ hγr _
      (ConvexHelpers.convexOn_pospart_sub _ hriskwc _)
  have hasset : ConvexOn ℝ Set.univ
      (fun q : (Fin m → ℝ) × ℝ =>
        ∑ i, d.kappa_short i * MarkowitzRef.pospart (-(q.1 i))) := by
    refine ConvexHelpers.convexOn_sum_smul Finset.univ _
      (fun i (q : (Fin m → ℝ) × ℝ) => MarkowitzRef.pospart (-(q.1 i)))
      (fun i _ => hks i) (fun i _ => ?_)
    refine ConvexHelpers.convexOn_comp_affine _ ConvexHelpers.convexOn_pospart
      (fun q : (Fin m → ℝ) × ℝ => -(q.1 i)) ?_
    intro a b x y hab
    simp only [Prod.fst_add, Prod.smul_fst, Pi.add_apply, Pi.smul_apply, smul_eq_mul]
    ring
  have hcash : ConvexOn ℝ Set.univ
      (fun q : (Fin m → ℝ) × ℝ =>
        d.kappa_borrow * MarkowitzRef.pospart (-q.2)) := by
    refine ConvexHelpers.convexOn_mul_const _ hkb _ ?_
    refine ConvexHelpers.convexOn_comp_affine _ ConvexHelpers.convexOn_pospart
      (fun q : (Fin m → ℝ) × ℝ => -q.2) ?_
    intro a b x y hab
    simp only [Prod.snd_add, Prod.smul_snd, smul_eq_mul]
    ring
  have hhold : ConvexOn ℝ Set.univ
      (fun q : (Fin m → ℝ) × ℝ => Markowitz.holding_cost d q.1 q.2) :=
    ConvexHelpers.convexOn_add_fun _ _ hasset hcash
  have hhinge2 : ConvexOn ℝ Set.univ
      (fun q : (Fin m → ℝ) × ℝ => p.gamma_hold * Markowitz.holding_cost d q.1 q.2) :=
    ConvexHelpers.convexOn_mul_const _ hγh _ hhold
  have hspread : ConvexOn ℝ Set.univ
      (fun q : (Fin m → ℝ) × ℝ =>
        ∑ i, d.kappa_spread i * |q.1 i - d.w_prev i|) := by
    refine ConvexHelpers.convexOn_sum_smul Finset.univ _
      (fun i (q : (Fin m → ℝ) × ℝ) => |q.1 i - d.w_prev i|)
      (fun i _ => hsp i) (fun i _ => ?_)
    refine ConvexHelpers.convexOn_comp_affine _ ConvexHelpers.convexOn_abs_fun
      (fun q : (Fin m → ℝ) × ℝ => q.1 i - d.w_prev i) ?_
    intro a b x y hab
    simp only [Prod.fst_add, Prod.smul_fst, Pi.add_apply, Pi.smul_apply, smul_eq_mul]
    have ht : a * d.w_prev i + b * d.w_prev i = d.w_prev i := by
      rw [← add_mul, hab, one_mul]
    linarith
  have himpact : ConvexOn ℝ Set.univ
      (fun q : (Fin m → ℝ) × ℝ =>
        ∑ i, d.kappa_impact i * |q.1 i - d.w_prev i| ^ ((3 : ℝ) / 2)) := by
    refine ConvexHelpers.convexOn_sum_smul Finset.univ _
      (fun i (q : (Fin m → ℝ) × ℝ) => |q.1 i - d.w_prev i| ^ ((3 : ℝ) / 2))
      (fun i _ => himp i) (fun i _ => ?_)
    refine ConvexHelpers.convexOn_comp_affine _
      (ConvexHelpers.convexOn_abs_rpow (by norm_num : (1 : ℝ) ≤ 3 / 2))
      (fun q : (Fin m → ℝ) × ℝ => q.1 i - d.w_prev i) ?_
    intro a b x y hab
    simp only [Prod.fst_add, Prod.smul_fst, Pi.add_apply, Pi.smul_apply, smul_eq_mul]
    have ht : a * d.w_prev i + b * d.w_prev i = d.w_prev i := by
      rw [← add_mul, hab, one_mul]
    linarith
  have htrade : ConvexOn ℝ Set.univ
      (fun q : (Fin m → ℝ) × ℝ => Markowitz.trading_cost d q.1) :=
    ConvexHelpers.convexOn_add_fun _ _ hspread himpact
  have hhinge3 : ConvexOn ℝ Set.univ
      (fun q : (Fin m → ℝ) × ℝ => p.gamma_trade * Markowitz.trading_cost d q.1) :=
    ConvexHelpers.convexOn_mul_const _ hγt _ htrade
  have hT : ConvexOn ℝ Set.univ
      (fun q : (Fin m → ℝ) × ℝ => Markowitz.T d q.1) := by
    refine ConvexHelpers.convexOn_sum_fun Finset.univ
      (fun i (q : (Fin m → ℝ) × ℝ) => |q.1 i - d.w_prev i|) (fun i _ => ?_)
    refine ConvexHelpers.convexOn_comp_affine _ ConvexHelpers.convexOn_abs_fun
      (fun q : (Fin m → ℝ) × ℝ => q.1 i - d.w_prev i) ?_
    intro a b x y hab
    simp only [Prod.fst_add, Prod.smul_fst, Pi.add_apply, Pi.smul_apply, smul_eq_mul]
    have ht : a * d.w_prev i + b * d.w_prev i = d.w_prev i := by
      rw [← add_mul, hab, one_mul]
    linarith
  have hhinge4 : ConvexOn ℝ Set.univ
      (fun q : (Fin m → ℝ) × ℝ => p.gamma_turn *
        MarkowitzRef.pospart (Markowitz.T d q.1 - p.T_max)) :=
    ConvexHelpers.convexOn_mul_const _ hγturn _
      (ConvexHelpers.convexOn_pospart_sub _ hT _)
  show ConcaveOn ℝ Set.univ
    (fun q : (Fin m → ℝ) × ℝ =>
      Markowitz.return_wc d p q.1 q.2
        - p.gamma_risk * MarkowitzRef.pospart (Markowitz.risk_wc d p q.1 - p.risk_target)
        - p.gamma_hold * Markowitz.holding_cost d q.1 q.2
        - p.gamma_trade * Markowitz.trading_cost d q.1
        - p.gamma_turn * MarkowitzRef.pospart (Markowitz.T d q.1 - p.T_max))
  exact ConvexHelpers.concaveOn_sub_fun _ _
    (ConvexHelpers.concaveOn_sub_fun _ _
      (ConvexHelpers.concaveOn_sub_fun _ _
        (ConvexHelpers.concaveOn_sub_fun _ _ hretwc hhinge1) hhinge2) hhinge3) hhinge4

/-- C7, witness: the concavity theorem applied at the all-zero data and
parameters, whose coefficients are all (trivially) nonnegative. -/
theorem claim_C7_witness :
    ConcaveOn ℝ Set.univ
      (fun q : (Fin 1 → ℝ) × ℝ => Markowitz.objective srcDataZero srcParamZero q.1 q.2) :=
  claim_C7 1 1 srcDataZero srcParamZero
    (fun _ => le_rfl) le_rfl (fun _ => le_rfl) (fun _ => le_rfl) (fun _ => le_rfl)
    (fun _ => le_rfl) le_rfl le_rfl le_rfl le_rfl le_rfl
